import Mathlib

/-
Formal model of the `agent` code-repair pipeline from `agent/workflow.py`
and `agent/engine_client.py`.

Modelling conventions:
- Python strings are `List Char`; header names kept as `String`.
- `subprocess.run` outcomes and external-engine JSON payloads are inputs
  (the `World` structure); a `none` build outcome models the
  `subprocess.TimeoutExpired` exception that `subprocess.run` raises when
  the timeout elapses.
- Python exceptions are the `PyExn` error of an `Except`.
-/

/-- ASCII single-quote character, used to assemble the diagnostic patterns
without apostrophes in string literals. -/
def squo : Char := Char.ofNat 39

/-- Left typographic quote U+2018, appearing in the GCC-style variant of the
third extractor rule. -/
def lq : Char := Char.ofNat 0x2018

/-- Right typographic quote U+2019. -/
def rq : Char := Char.ofNat 0x2019

/-- Wrap a string in ASCII single quotes, as the diagnostic regexes do. -/
def quoted (s : String) : List Char := squo :: s.toList ++ [squo]

/-- Whitespace class of Python's `re` module `\s` (ASCII part; the compiler
diagnostics matched here are ASCII). -/
def pySpace (c : Char) : Bool :=
  c == ' ' || c == '\t' || c == '\n' || c == '\r' || c == Char.ofNat 11 || c == Char.ofNat 12

/-- Line-boundary characters of Python `str.splitlines`. -/
def isLineBreak (c : Char) : Bool :=
  c == '\n' || c == '\r' || c == Char.ofNat 11 || c == Char.ofNat 12 ||
  c == Char.ofNat 28 || c == Char.ofNat 29 || c == Char.ofNat 30 ||
  c == Char.ofNat 133 || c == Char.ofNat 8232 || c == Char.ofNat 8233

/-- Python `str.splitlines`, accumulator version: `acc` holds the current
line reversed.  `\r\n` counts as a single boundary. -/
def splitlinesAux : List Char → List Char → List (List Char)
  | [], acc => if acc.isEmpty then [] else [acc.reverse]
  | c :: rest, acc =>
      if isLineBreak c then
        acc.reverse ::
          (if c == '\r' then
            match rest with
            | [] => splitlinesAux [] []
            | c2 :: rest2 =>
              if c2 == '\n' then splitlinesAux rest2 [] else splitlinesAux (c2 :: rest2) []
          else splitlinesAux rest [])
      else splitlinesAux rest (c :: acc)

/-- Python `content.splitlines()`. -/
def splitlines (s : List Char) : List (List Char) := splitlinesAux s []

/-- Python `"\n".join(lines)`. -/
def joinNL : List (List Char) → List Char
  | [] => []
  | [l] => l
  | l :: ls => l ++ '\n' :: joinNL ls

/-- Python `s.endswith("\n")`. -/
def endswithNL (s : List Char) : Bool := s.getLast? == some '\n'

/-- Python `s.startswith(p)` on char lists. -/
def listStartsWith : List Char → List Char → Bool
  | [], _ => true
  | _ :: _, [] => false
  | p :: ps, c :: cs => p == c && listStartsWith ps cs

/-- Python `p in s` (substring test) on char lists. -/
def isSubstr : List Char → List Char → Bool
  | p, [] => listStartsWith p []
  | p, s@(_ :: rest) => listStartsWith p s || isSubstr p rest

/-- Python `s.strip()` (both-ends whitespace strip). -/
def pyStrip (s : List Char) : List Char :=
  ((s.dropWhile pySpace).reverse.dropWhile pySpace).reverse

/-- One token of the diagnostic regexes of `_extract_missing_includes`:
a literal, a `\s+` run, or a two-literal alternation. -/
inductive RTok where
  | lit : List Char → RTok
  | ws : RTok
  | alt : List Char → List Char → RTok

/-- Match a token sequence starting exactly at the head of `s`.  `\s+` is
matched greedily; in every pattern of the source a `\s+` is followed by a
literal starting with a non-space character, so maximal munch coincides
with the backtracking semantics of `re`. -/
def matchAt : List RTok → List Char → Bool
  | [], _ => true
  | RTok.lit l :: ts, s => listStartsWith l s && matchAt ts (s.drop l.length)
  | RTok.alt a b :: ts, s =>
      (listStartsWith a s && matchAt ts (s.drop a.length)) ||
      (listStartsWith b s && matchAt ts (s.drop b.length))
  | RTok.ws :: ts, s =>
      (match s with
       | c :: _ => pySpace c
       | [] => false) && matchAt ts (s.dropWhile pySpace)

/-- Python `re.search`: try the pattern at every start position. -/
def reSearch (ts : List RTok) : List Char → Bool
  | [] => matchAt ts []
  | s@(_ :: rest) => matchAt ts s || reSearch ts rest

/-- Regex `(no member named|is not a member of)\s+'chrono'\s+in\s+namespace\s+'std'`. -/
def sigChronoA : List RTok :=
  [RTok.alt (("no member named").toList) (("is not a member of").toList),
   RTok.ws, RTok.lit (quoted ("chrono")),
   RTok.ws, RTok.lit (("in").toList),
   RTok.ws, RTok.lit (("namespace").toList),
   RTok.ws, RTok.lit (quoted ("std"))]

/-- Regex `error: 'chrono' is not a member of 'std'`. -/
def sigChronoB : List RTok :=
  [RTok.lit ((("error: ").toList ++ quoted ("chrono")) ++
    ((" is not a member of ").toList ++ quoted ("std")))]

/-- Regex `(no member named|is not a member of)\s+'this_thread'\s+in\s+namespace\s+'std'`. -/
def sigThreadA : List RTok :=
  [RTok.alt (("no member named").toList) (("is not a member of").toList),
   RTok.ws, RTok.lit (quoted ("this_thread")),
   RTok.ws, RTok.lit (("in").toList),
   RTok.ws, RTok.lit (("namespace").toList),
   RTok.ws, RTok.lit (quoted ("std"))]

/-- Regex `error: 'this_thread' is not a member of 'std'`. -/
def sigThreadB : List RTok :=
  [RTok.lit ((("error: ").toList ++ quoted ("this_thread")) ++
    ((" is not a member of ").toList ++ quoted ("std")))]

/-- Regex `namespace\s+'std::this_thread'`. -/
def sigThreadC : List RTok :=
  [RTok.lit (("namespace").toList), RTok.ws, RTok.lit (quoted ("std::this_thread"))]

/-- Regex `namespace\s+‘std::this_thread’` (typographic quotes). -/
def sigThreadD : List RTok :=
  [RTok.lit (("namespace").toList), RTok.ws,
   RTok.lit (lq :: ("std::this_thread").toList ++ [rq])]

/-- The inner `add` closure of `_extract_missing_includes`: append if absent. -/
def addHeader (need : List String) (h : String) : List String :=
  if h ∈ need then need else need ++ [h]

/-- `_extract_missing_includes(build_stderr)` from `agent/workflow.py`. -/
def extract_missing_includes (stderrText : List Char) : List String :=
  let need : List String := []
  let need := if reSearch sigChronoA stderrText || reSearch sigChronoB stderrText then
    addHeader need ("chrono") else need
  let need := if reSearch sigThreadA stderrText || reSearch sigThreadB stderrText then
    addHeader need ("thread") else need
  let need := if reSearch sigThreadC stderrText || reSearch sigThreadD stderrText then
    addHeader need ("thread") else need
  need

/-- Whether any of the six recognized diagnostic signatures occurs in the text. -/
def anySignature (s : List Char) : Bool :=
  reSearch sigChronoA s || reSearch sigChronoB s || reSearch sigThreadA s ||
  reSearch sigThreadB s || reSearch sigThreadC s || reSearch sigThreadD s

example : extract_missing_includes (("error: ").toList ++ quoted ("chrono") ++
    (" is not a member of ").toList ++ quoted ("std")) = [("chrono")] := by decide

example : extract_missing_includes (("ld: undefined reference to main").toList) = [] := by
  decide

example : splitlines (("a\r\nb").toList) = [[('a' : Char)], [('b' : Char)]] := by decide

example : splitlines (("a\n\r").toList) = [[('a' : Char)], []] := by decide

/-- JSON values as parsed by `json.loads`; numbers keep their raw lexeme
(no claim inspects a numeric value beyond truthiness). -/
inductive JVal where
  | jnull : JVal
  | jbool : Bool → JVal
  | jnum : List Char → JVal
  | jstr : List Char → JVal
  | jarr : List JVal → JVal
  | jobj : List (String × JVal) → JVal

/-- Python `dict.get(k)` on an association list with unique keys. -/
def dictGet (kvs : List (String × JVal)) (k : String) : Option JVal :=
  match kvs with
  | [] => none
  | (k1, v) :: rest => if k1 = k then some v else dictGet rest k

/-- Python `d[k] = v`: replace in place if the key exists, else append
(CPython keeps the first-insertion position and the last value). -/
def dictSet (kvs : List (String × JVal)) (k : String) (v : JVal) : List (String × JVal) :=
  match kvs with
  | [] => [(k, v)]
  | (k1, v1) :: rest => if k1 = k then (k, v) :: rest else (k1, v1) :: dictSet rest k v

/-- Python truthiness of a JSON value (`if not payload.get("ok")`). -/
def truthy : JVal → Bool
  | JVal.jnull => false
  | JVal.jbool b => b
  | JVal.jnum raw =>
      (raw.takeWhile (fun c => !(c == 'e') && !(c == 'E'))).any
        (fun c => ('1' ≤ c) && (c ≤ '9'))
  | JVal.jstr s => !s.isEmpty
  | JVal.jarr xs => !xs.isEmpty
  | JVal.jobj kvs => !kvs.isEmpty

/-- Python truthiness of a `dict.get` result (`None` is falsy). -/
def truthyO : Option JVal → Bool
  | none => false
  | some v => truthy v

/-- Field access on a JSON value; `none` on non-objects and absent keys. -/
def jget (v : JVal) (k : String) : Option JVal :=
  match v with
  | JVal.jobj kvs => dictGet kvs k
  | _ => none

/-- JSON whitespace accepted by `json.loads` between tokens. -/
def skipWs (s : List Char) : List Char :=
  s.dropWhile (fun c => c == ' ' || c == '\t' || c == '\n' || c == '\r')

/-- Value of a hex digit, if any. -/
def hexVal (c : Char) : Option Nat :=
  if '0' ≤ c ∧ c ≤ '9' then some (c.toNat - 48)
  else if 'a' ≤ c ∧ c ≤ 'f' then some (c.toNat - 87)
  else if 'A' ≤ c ∧ c ≤ 'F' then some (c.toNat - 55)
  else none

/-- Single-character JSON string escapes. -/
def escChar (c : Char) : Option Char :=
  if c == '\"' then some '\"'
  else if c == '\\' then some '\\'
  else if c == '/' then some '/'
  else if c == 'b' then some (Char.ofNat 8)
  else if c == 'f' then some (Char.ofNat 12)
  else if c == 'n' then some '\n'
  else if c == 'r' then some '\r'
  else if c == 't' then some '\t'
  else none

/-- Parse a JSON string body after the opening quote; returns the decoded
characters and the remainder after the closing quote. -/
def parseJStr : Nat → List Char → Option (List Char × List Char)
  | 0, _ => none
  | _, [] => none
  | fuel + 1, c :: rest =>
    if c == '\"' then some ([], rest)
    else if c == '\\' then
      match rest with
      | [] => none
      | e :: rest2 =>
        if e == 'u' then
          match rest2 with
          | h1 :: h2 :: h3 :: h4 :: rest3 =>
            match hexVal h1, hexVal h2, hexVal h3, hexVal h4 with
            | some a, some b, some c3, some d =>
              (parseJStr fuel rest3).map
                (fun p => (Char.ofNat (((a * 16 + b) * 16 + c3) * 16 + d) :: p.1, p.2))
            | _, _, _, _ => none
          | _ => none
        else
          match escChar e with
          | some ch => (parseJStr fuel rest2).map (fun p => (ch :: p.1, p.2))
          | none => none
    else if c.toNat < 32 then none
    else (parseJStr fuel rest).map (fun p => (c :: p.1, p.2))

/-- Leading decimal digits and the rest. -/
def takeDigits (s : List Char) : List Char × List Char :=
  (s.takeWhile Char.isDigit, s.dropWhile Char.isDigit)

/-- Fraction part `.digits`, or an empty lexeme. -/
def parseFrac (s : List Char) : Option (List Char × List Char) :=
  match s with
  | '.' :: r =>
      let p := takeDigits r
      if p.1.isEmpty then none else some ('.' :: p.1, p.2)
  | _ => some ([], s)

/-- Exponent part `(e|E)(+|-)?digits`, or an empty lexeme. -/
def parseExp (s : List Char) : Option (List Char × List Char) :=
  match s with
  | c :: r =>
      if c == 'e' || c == 'E' then
        let p :=
          match r with
          | c2 :: r2 => if c2 == '+' || c2 == '-' then ([c2], r2) else (([] : List Char), r)
          | [] => (([] : List Char), r)
        let d := takeDigits p.2
        if d.1.isEmpty then none else some (c :: (p.1 ++ d.1), d.2)
      else some ([], c :: r)
  | [] => some ([], [])

/-- A JSON number lexeme, with the grammar `json.loads` accepts. -/
def parseNum (s : List Char) : Option (List Char × List Char) :=
  let sp :=
    match s with
    | '-' :: r => ([('-' : Char)], r)
    | _ => (([] : List Char), s)
  let ip := takeDigits sp.2
  if ip.1.isEmpty then none
  else if ip.1.length > 1 && (ip.1.head? == some '0') then none
  else
    match parseFrac ip.2 with
    | none => none
    | some fp =>
      match parseExp fp.2 with
      | none => none
      | some ep => some (sp.1 ++ ip.1 ++ fp.1 ++ ep.1, ep.2)

/-- Opening brace character. -/
def obrace : Char := Char.ofNat 123

/-- Closing brace character. -/
def cbrace : Char := Char.ofNat 125

mutual

/-- Recursive-descent model of `json.loads`, one value. -/
def parseVal : Nat → List Char → Option (JVal × List Char)
  | 0, _ => none
  | fuel + 1, s0 =>
    match skipWs s0 with
    | [] => none
    | c :: rest =>
      if c == '\"' then
        (parseJStr (rest.length + 1) rest).map (fun p => (JVal.jstr p.1, p.2))
      else if c == obrace then
        match skipWs rest with
        | c2 :: rest2 =>
          if c2 == cbrace then some (JVal.jobj [], rest2)
          else parseObjFields fuel (c2 :: rest2) []
        | [] => none
      else if c == '[' then
        match skipWs rest with
        | c2 :: rest2 =>
          if c2 == ']' then some (JVal.jarr [], rest2)
          else parseArrElems fuel (c2 :: rest2) []
        | [] => none
      else if listStartsWith (("true").toList) (c :: rest) then
        some (JVal.jbool true, (c :: rest).drop 4)
      else if listStartsWith (("false").toList) (c :: rest) then
        some (JVal.jbool false, (c :: rest).drop 5)
      else if listStartsWith (("null").toList) (c :: rest) then
        some (JVal.jnull, (c :: rest).drop 4)
      else
        (parseNum (c :: rest)).map (fun p => (JVal.jnum p.1, p.2))

/-- Object members `"key": value (, ...)*` up to the closing brace. -/
def parseObjFields : Nat → List Char → List (String × JVal) →
    Option (JVal × List Char)
  | 0, _, _ => none
  | fuel + 1, s, acc =>
    match skipWs s with
    | [] => none
    | c :: rest =>
      if c == '\"' then
        match parseJStr (rest.length + 1) rest with
        | none => none
        | some (key, r1) =>
          match skipWs r1 with
          | [] => none
          | c2 :: r2 =>
            if c2 == ':' then
              match parseVal fuel r2 with
              | none => none
              | some (v, r3) =>
                let acc2 := dictSet acc (String.mk key) v
                match skipWs r3 with
                | [] => none
                | c3 :: r4 =>
                  if c3 == ',' then parseObjFields fuel r4 acc2
                  else if c3 == cbrace then some (JVal.jobj acc2, r4)
                  else none
            else none
      else none

/-- Array elements `value (, ...)*` up to the closing bracket. -/
def parseArrElems : Nat → List Char → List JVal → Option (JVal × List Char)
  | 0, _, _ => none
  | fuel + 1, s, acc =>
    match parseVal fuel s with
    | none => none
    | some (v, r1) =>
      match skipWs r1 with
      | [] => none
      | c :: r2 =>
        if c == ',' then parseArrElems fuel r2 (acc ++ [v])
        else if c == ']' then some (JVal.jarr (acc ++ [v]), r2)
        else none

end

/-- Python `json.loads`: parse one value and require only whitespace after it;
`none` models `json.JSONDecodeError`. -/
def json_loads (s : List Char) : Option JVal :=
  match parseVal (s.length + 1) s with
  | some (v, rest) => if (skipWs rest).isEmpty then some v else none
  | none => none

/-- Python exceptions that can escape the modelled code. -/
inductive PyExn where
  | timeoutExpired : PyExn
  | keyError : PyExn
  | typeError : PyExn
  | attributeError : PyExn
deriving DecidableEq

/-- The dict `EngineClient._run` returns when the engine exits non-zero with
empty (stripped) stdout. -/
def engineFailedPayload (stderrText : List Char) (args : List String) : JVal :=
  JVal.jobj [(("ok"), JVal.jbool false),
             (("error"), JVal.jstr (("engine_failed").toList)),
             (("stderr"), JVal.jstr stderrText),
             (("args"), JVal.jarr (args.map (fun a => JVal.jstr a.toList)))]

/-- The dict `EngineClient._run` returns when stdout is not valid JSON. -/
def engineInvalidJsonPayload (stdoutText stderrText : List Char)
    (args : List String) : JVal :=
  JVal.jobj [(("ok"), JVal.jbool false),
             (("error"), JVal.jstr (("engine_invalid_json").toList)),
             (("stdout"), JVal.jstr stdoutText),
             (("stderr"), JVal.jstr stderrText),
             (("args"), JVal.jarr (args.map (fun a => JVal.jstr a.toList)))]

/-- `EngineClient._run` from `agent/engine_client.py`, as a function of the
engine process outcome.  A non-dict payload under a non-zero exit raises
`AttributeError` at `payload.get`, as in Python. -/
def engine_run (returncode : Int) (stdoutText stderrText : List Char)
    (args : List String) : Except PyExn JVal :=
  if returncode ≠ 0 ∧ pyStrip stdoutText = [] then
    Except.ok (engineFailedPayload stderrText args)
  else
    match json_loads stdoutText with
    | none => Except.ok (engineInvalidJsonPayload stdoutText stderrText args)
    | some payload =>
      if returncode = 0 then Except.ok payload
      else
        match payload with
        | JVal.jobj kvs =>
          match dictGet kvs ("ok") with
          | some (JVal.jbool true) =>
            let p1 := dictSet kvs ("ok") (JVal.jbool false)
            let errv := (dictGet p1 ("error")).getD
              (JVal.jstr (("engine_nonzero_exit").toList))
            Except.ok (JVal.jobj (dictSet p1 ("error") errv))
          | _ => Except.ok payload
        | _ => Except.error PyExn.attributeError

/-- Field access through an `_run` result, for stating the client contract. -/
def jgetRes (r : Except PyExn JVal) (k : String) : Option JVal :=
  match r with
  | Except.ok v => jget v k
  | Except.error _ => none

example : json_loads (("\x7b\"ok\": true, \"error\": \"boom\"\x7d").toList) =
    some (JVal.jobj [(("ok"), JVal.jbool true), (("error"), JVal.jstr (("boom").toList))]) := by
  rfl

example : json_loads (("xx").toList) = none := by rfl

example : json_loads (("  \x7b\"a\": [1, -2.5e3, null, false]\x7d ").toList) =
    some (JVal.jobj [(("a"), JVal.jarr [JVal.jnum [('1' : Char)],
      JVal.jnum (("-2.5e3").toList), JVal.jnull, JVal.jbool false])]) := by rfl

example : jgetRes (engine_run 1 (("\x7b\"ok\": true, \"error\": \"boom\"\x7d").toList) [] [])
    ("error") = some (JVal.jstr (("boom").toList)) := by rfl

example : jgetRes (engine_run 1 (("\x7b\"ok\": true\x7d").toList) [] [])
    ("error") = some (JVal.jstr (("engine_nonzero_exit").toList)) := by rfl

example : engine_run 1 [] [] [] = Except.ok (engineFailedPayload [] []) := by rfl

example : splitlines ((Char.ofNat 11) :: [(Char.ofNat 11)]) = [[], []] := by decide
example : splitlines (("a\rb").toList) = [[('a' : Char)], [('b' : Char)]] := by decide
example : splitlines (("\r\n\r").toList) = [[], []] := by decide
example : splitlines (("a\r\rb").toList) = [[('a' : Char)], [], [('b' : Char)]] := by decide
example : splitlines (('x' : Char) :: (Char.ofNat 133) :: [('y' : Char)]) =
    [[('x' : Char)], [('y' : Char)]] := by decide
example : pyStrip (("  a b  ").toList) = ("a b").toList := by decide
example : json_loads (("01").toList) = none := by rfl
example : json_loads (("1.").toList) = none := by rfl
example : json_loads ((".5").toList) = none := by rfl
example : json_loads (("true false").toList) = none := by rfl
example : json_loads (("\x7b\"a\":1,\"a\":2\x7d").toList) =
    some (JVal.jobj [(("a"), JVal.jnum [('2' : Char)])]) := by rfl

/-- Outcome of a `subprocess.run` invocation that did not time out. -/
structure ProcOut where
  code : Int
  stdoutText : List Char
  stderrText : List Char
deriving DecidableEq

/-- The structured dict `_run_cmd` returns: exit code, captured stdout and
stderr, and the command invoked. -/
structure BuildResult where
  code : Int
  stdoutText : List Char
  stderrText : List Char
  cmd : List String
deriving DecidableEq

/-- `_run_cmd(cmd, cwd, timeout_s)` from `agent/workflow.py`: `subprocess.run`
either returns an outcome, packaged into a `BuildResult`, or raises
`subprocess.TimeoutExpired` when the wall-clock timeout elapses — the
function has no handler for it. -/
def runCmd (cmd : List String) (outcome : Option ProcOut) : Except PyExn BuildResult :=
  match outcome with
  | none => Except.error PyExn.timeoutExpired
  | some p => Except.ok ⟨p.code, p.stdoutText, p.stderrText, cmd⟩

/-- One line-range replacement of the `edits.json` format. -/
structure Edit where
  path : String
  start_line : Nat
  end_line : Nat
  replacement : List Char
deriving DecidableEq

/-- Observable step of a run: an artifact written under the run directory,
an external-engine call, or a build invocation. -/
inductive Event where
  | artifact : String → Event
  | engineSearch : Event
  | engineRead : Event
  | engineApply : Edit → Event
  | buildRun : Event
deriving DecidableEq

/-- True exactly for the external-engine calls. -/
def Event.isEngineCall : Event → Bool
  | Event.engineSearch => true
  | Event.engineRead => true
  | Event.engineApply _ => true
  | _ => false

/-- True exactly for the apply-edits engine call. -/
def Event.isApply : Event → Bool
  | Event.engineApply _ => true
  | _ => false

/-- Environment of one `run_workflow` invocation: the clock reading that
derives the run id, the two build outcomes (`none` = timeout), and the
parsed payloads the engine client returns for the three calls made. -/
structure World where
  nowMs : Nat
  build1 : Option ProcOut
  build2 : Option ProcOut
  searchRes : JVal
  readRes : JVal
  applyRes : JVal

/-- The verdict dicts `run_workflow` can return, one constructor per
`return` statement. -/
inductive Verdict where
  | buildAlreadyOK : String → String → Verdict
  | unsupportedBuildError : String → BuildResult → Verdict
  | readFileFailed : String → JVal → Verdict
  | includesAlreadyPresent : String → Verdict
  | applyFailed : String → JVal → Verdict
  | stillFailing : String → BuildResult → Verdict
  | fixedMissingInclude : String → List String → Option JVal → Verdict

/-- The `ok` field of the verdict dict. -/
def Verdict.okFlag : Verdict → Bool
  | Verdict.buildAlreadyOK _ _ => true
  | Verdict.fixedMissingInclude _ _ _ => true
  | _ => false

/-- The `error` field of the verdict dict, when present. -/
def Verdict.errorKind : Verdict → Option String
  | Verdict.unsupportedBuildError _ _ => some ("unsupported_build_error")
  | Verdict.readFileFailed _ _ => some ("read_file_failed")
  | Verdict.includesAlreadyPresent _ => some ("includes_already_present")
  | Verdict.applyFailed _ _ => some ("apply_failed")
  | Verdict.stillFailing _ _ => some ("still_failing")
  | _ => none

/-- The `#include <h>` line synthesized for a header (Python
`f"#include <{h}>"`). -/
def includeLine (h : String) : List Char :=
  ("#include <").toList ++ h.toList ++ [('>' : Char)]

/-- The loop of step 6 of `run_workflow`: index one past the last line that
starts with `#include`, or `0`. -/
def insertAtAux : List (List Char) → Nat → Nat → Nat
  | [], _, acc => acc
  | l :: rest, i, acc =>
      insertAtAux rest (i + 1)
        (if listStartsWith (("#include").toList) l then i + 1 else acc)

/-- `insert_at` as computed over `content.splitlines()`. -/
def insert_at (lines : List (List Char)) : Nat := insertAtAux lines 0 0

/-- `new_lines = lines[:insert_at] + [f"#include <{h}>" ...] + lines[insert_at:]`. -/
def new_lines (content : List Char) (headers : List String) : List (List Char) :=
  let lines := splitlines content
  lines.take (insert_at lines) ++ headers.map includeLine ++ lines.drop (insert_at lines)

/-- `replacement = "\n".join(new_lines) + ("\n" if content.endswith("\n") else "")`. -/
def synthesize (content : List Char) (headers : List String) : List Char :=
  joinNL (new_lines content headers) ++ (if endswithNL content then [('\n' : Char)] else [])

/-- The secondary content scan of `run_workflow` step 5: add `chrono` and then
`thread` when the bare usage appears in the file, the include is absent, and
the header was not already inferred. -/
def scanContent (content : List Char) (need : List String) : List String :=
  let need :=
    if isSubstr (("std::chrono::").toList) content &&
       !isSubstr (includeLine ("chrono")) content && !(need.contains ("chrono")) then
      need ++ [("chrono")] else need
  let need :=
    if isSubstr (("std::this_thread::").toList) content &&
       !isSubstr (includeLine ("thread")) content && !(need.contains ("thread")) then
      need ++ [("thread")] else need
  need

/-- The final missing-header list: extractor result, content re-scan, then the
filter dropping headers whose include line is already in the content. -/
def finalHeaders (stderrText content : List Char) : List String :=
  (scanContent content (extract_missing_includes stderrText)).filter
    (fun h => !isSubstr (includeLine h) content)

/-- `run_workflow(task, workspace, engine, logs_root)` from `agent/workflow.py`.
Returns the verdict (or the escaped Python exception) together with the trace
of artifacts written, engine calls issued and builds run, in program order.
The engine calls are modelled by the payloads the client returns for them. -/
def run_workflow (w : World) : Except PyExn Verdict × List Event :=
  let run_id := toString w.nowMs
  let ev0 : List Event := [Event.artifact ("task.txt"), Event.artifact ("plan.json")]
  match runCmd [("./build.sh")] w.build1 with
  | Except.error e => (Except.error e, ev0 ++ [Event.buildRun])
  | Except.ok build =>
    let ev1 := ev0 ++ [Event.buildRun, Event.artifact ("build_0.json")]
    if build.code = 0 then
      (Except.ok (Verdict.buildAlreadyOK run_id ("build already OK")), ev1)
    else
      if extract_missing_includes build.stderrText = [] then
        (Except.ok (Verdict.unsupportedBuildError run_id build), ev1)
      else
        let ev2 := ev1 ++ [Event.engineSearch, Event.artifact ("retrieve.json"),
          Event.engineRead]
        match w.readRes with
        | JVal.jobj kvs =>
          if truthyO (dictGet kvs ("ok")) = false then
            (Except.ok (Verdict.readFileFailed run_id w.readRes), ev2)
          else
            match dictGet kvs ("content") with
            | none => (Except.error PyExn.keyError, ev2)
            | some (JVal.jstr content) =>
              let needed := finalHeaders build.stderrText content
              if needed = [] then
                (Except.ok (Verdict.includesAlreadyPresent run_id), ev2)
              else
                let lines := splitlines content
                let edit : Edit :=
                  ⟨("main.cpp"), 1, lines.length, synthesize content needed⟩
                let ev3 := ev2 ++ [Event.artifact ("edits.json"),
                  Event.engineApply edit, Event.artifact ("apply.json")]
                match w.applyRes with
                | JVal.jobj akvs =>
                  if truthyO (dictGet akvs ("ok")) = false then
                    (Except.ok (Verdict.applyFailed run_id w.applyRes), ev3)
                  else
                    match runCmd [("./build.sh")] w.build2 with
                    | Except.error e => (Except.error e, ev3 ++ [Event.buildRun])
                    | Except.ok build2 =>
                      let ev4 := ev3 ++ [Event.buildRun, Event.artifact ("build_1.json")]
                      if build2.code ≠ 0 then
                        (Except.ok (Verdict.stillFailing run_id build2), ev4)
                      else
                        (Except.ok (Verdict.fixedMissingInclude run_id needed
                          (dictGet akvs ("snapshot_id"))), ev4)
                | _ => (Except.error PyExn.attributeError, ev3)
            | some _ => (Except.error PyExn.typeError, ev2)
        | _ => (Except.error PyExn.attributeError, ev2)

/-- A GCC-style first-build stderr matching only the `chrono` signature. -/
def chronoErrText : List Char :=
  (("error: ").toList ++ quoted ("chrono")) ++
    ((" is not a member of ").toList ++ quoted ("std"))

example : (run_workflow ⟨0, none, none, JVal.jnull, JVal.jnull, JVal.jnull⟩).1 =
    Except.error PyExn.timeoutExpired := by rfl

example : run_workflow ⟨0, some ⟨0, [], []⟩, none, JVal.jnull, JVal.jnull, JVal.jnull⟩ =
    (Except.ok (Verdict.buildAlreadyOK ("0") ("build already OK")),
     [Event.artifact ("task.txt"), Event.artifact ("plan.json"), Event.buildRun,
      Event.artifact ("build_0.json")]) := by rfl

example :
    (run_workflow ⟨0, some ⟨1, [], chronoErrText⟩, some ⟨0, [], []⟩, JVal.jnull,
      JVal.jobj [(("ok"), JVal.jbool true), (("content"), JVal.jstr [])],
      JVal.jobj [(("ok"), JVal.jbool true),
        (("snapshot_id"), JVal.jstr (("s1").toList))]⟩).1 =
    Except.ok (Verdict.fixedMissingInclude ("0") [("chrono")]
      (some (JVal.jstr (("s1").toList)))) := by rfl

example :
    Event.engineApply ⟨("main.cpp"), 1, 0, ("#include <chrono>").toList⟩ ∈
    (run_workflow ⟨0, some ⟨1, [], chronoErrText⟩, some ⟨0, [], []⟩, JVal.jnull,
      JVal.jobj [(("ok"), JVal.jbool true), (("content"), JVal.jstr [])],
      JVal.jobj [(("ok"), JVal.jbool true),
        (("snapshot_id"), JVal.jstr (("s1").toList))]⟩).2 := by decide

/-- A GCC-style first-build stderr matching only the `this_thread` signature. -/
def threadErrText : List Char :=
  (("error: ").toList ++ quoted ("this_thread")) ++
    ((" is not a member of ").toList ++ quoted ("std"))

/-- World of a run whose first build times out. -/
def c1World : World := ⟨7, none, none, JVal.jnull, JVal.jnull, JVal.jnull⟩

/-- Whether a run result carries a verdict at all (rather than an escaped
exception). -/
def returnedVerdict : Except PyExn Verdict × List Event → Bool
  | (Except.ok _, _) => true
  | (Except.error _, _) => false

/-- A linker-style diagnostic matching none of the signatures. -/
def ldErrText : List Char := ("collect2: error: ld returned 1 exit status").toList

/-- World of a run whose first build fails with an unrecognized diagnostic. -/
def c3World : World := ⟨4, some ⟨2, [], ldErrText⟩, none, JVal.jnull, JVal.jnull, JVal.jnull⟩

/-- World of a run whose first build succeeds. -/
def c4World : World := ⟨3, some ⟨0, [], []⟩, none, JVal.jnull, JVal.jnull, JVal.jnull⟩

/-- True exactly for build invocations. -/
def Event.isBuild : Event → Bool
  | Event.buildRun => true
  | _ => false

/-- Trace of a run that has reached and passed the apply step. -/
def traceToApply (stderrText content : List Char) : List Event :=
  [Event.artifact ("task.txt"), Event.artifact ("plan.json"), Event.buildRun,
   Event.artifact ("build_0.json"), Event.engineSearch, Event.artifact ("retrieve.json"),
   Event.engineRead, Event.artifact ("edits.json"),
   Event.engineApply ⟨("main.cpp"), 1, (splitlines content).length,
     synthesize content (finalHeaders stderrText content)⟩,
   Event.artifact ("apply.json")]

/-- World of a full successful repair run (Scenario B). -/
def c2World : World := ⟨5, some ⟨1, [], chronoErrText⟩, some ⟨0, [], []⟩, JVal.jnull,
  JVal.jobj [(("ok"), JVal.jbool true), (("content"), JVal.jstr (("int x;\n").toList))],
  JVal.jobj [(("ok"), JVal.jbool true), (("snapshot_id"), JVal.jstr (("s1").toList))]⟩

/-- World of Scenario D: the diagnostic matches `thread` but the include is
already in the file. -/
def c8World : World := ⟨6, some ⟨1, [], threadErrText⟩, none, JVal.jnull,
  JVal.jobj [(("ok"), JVal.jbool true),
    (("content"), JVal.jstr (("#include <thread>\nint x;\n").toList))], JVal.jnull⟩

/-- World of a repair run whose target file is empty: the synthesized Edit
gets end_line = 0. -/
def c6World : World := ⟨0, some ⟨1, [], chronoErrText⟩, some ⟨0, [], []⟩, JVal.jnull,
  JVal.jobj [(("ok"), JVal.jbool true), (("content"), JVal.jstr [])],
  JVal.jobj [(("ok"), JVal.jbool true), (("snapshot_id"), JVal.jstr (("s1").toList))]⟩

theorem dictGet_dictSet_same (kvs : List (String × JVal)) (k : String) (v : JVal) :
    dictGet (dictSet kvs k v) k = some v := by
  induction kvs with
  | nil => simp [dictSet, dictGet]
  | cons p rest ih =>
    obtain ⟨k1, v1⟩ := p
    by_cases h : k1 = k
    · simp [dictSet, h, dictGet]
    · simp [dictSet, h, dictGet, ih]

theorem dictGet_dictSet_ne (kvs : List (String × JVal)) (k k2 : String) (v : JVal)
    (h : k ≠ k2) : dictGet (dictSet kvs k v) k2 = dictGet kvs k2 := by
  induction kvs with
  | nil => simp [dictSet, dictGet, h]
  | cons p rest ih =>
    obtain ⟨k1, v1⟩ := p
    by_cases h1 : k1 = k
    · subst h1; simp [dictSet, dictGet, h]
    · simp [dictSet, h1, dictGet, ih]

/-- C7: the Diagnostic Extractor returns each dependency token at most once,
and exactly once when any recognized signature for it matches, no matter how
many of its signatures match. -/
theorem c7_extractor_dedup (s : List Char) :
    (extract_missing_includes s).Nodup ∧
    ((reSearch sigChronoA s || reSearch sigChronoB s) = true →
      (extract_missing_includes s).count ("chrono") = 1) ∧
    ((reSearch sigThreadA s || reSearch sigThreadB s) = true ∨
        (reSearch sigThreadC s || reSearch sigThreadD s) = true →
      (extract_missing_includes s).count ("thread") = 1) := by
  cases hc : reSearch sigChronoA s || reSearch sigChronoB s <;>
    cases ht1 : reSearch sigThreadA s || reSearch sigThreadB s <;>
      cases ht2 : reSearch sigThreadC s || reSearch sigThreadD s <;>
        simp [extract_missing_includes, hc, ht1, ht2, addHeader]

theorem c7_extractor_dedup_witness :
    (extract_missing_includes (chronoErrText ++ '\n' :: threadErrText)).Nodup ∧
    (extract_missing_includes (chronoErrText ++ '\n' :: threadErrText)).count ("chrono") = 1 ∧
    (extract_missing_includes (chronoErrText ++ '\n' :: threadErrText)).count ("thread") = 1 :=
  ⟨(c7_extractor_dedup (chronoErrText ++ '\n' :: threadErrText)).1,
   (c7_extractor_dedup (chronoErrText ++ '\n' :: threadErrText)).2.1 (by decide),
   (c7_extractor_dedup (chronoErrText ++ '\n' :: threadErrText)).2.2 (Or.inl (by decide))⟩

/-- C9 (amended): the client classifies engine failures distinctly —
`engine_failed` on a non-zero exit with no (stripped) output,
`engine_invalid_json` on unparsable output, and a non-zero exit whose parsed
response claims success is normalized to a failure whose error is
`engine_nonzero_exit` when the response carries no `error` field, the
response's own `error` value being preserved otherwise. -/
theorem c9_engine_client_failure_modes (rc : Int) (out errT : List Char)
    (args : List String) :
    (rc ≠ 0 → pyStrip out = [] →
      engine_run rc out errT args = Except.ok (engineFailedPayload errT args)) ∧
    ((rc = 0 ∨ pyStrip out ≠ []) → json_loads out = none →
      engine_run rc out errT args = Except.ok (engineInvalidJsonPayload out errT args)) ∧
    (∀ kvs, rc ≠ 0 → pyStrip out ≠ [] → json_loads out = some (JVal.jobj kvs) →
      dictGet kvs ("ok") = some (JVal.jbool true) →
      jgetRes (engine_run rc out errT args) ("ok") = some (JVal.jbool false) ∧
      jgetRes (engine_run rc out errT args) ("error") =
        some ((dictGet kvs ("error")).getD
          (JVal.jstr (("engine_nonzero_exit").toList)))) := by
  refine ⟨?_, ?_, ?_⟩
  · intro h1 h2
    simp [engine_run, h1, h2]
  · intro h1 h2
    have hcond : ¬(rc ≠ 0 ∧ pyStrip out = []) := by
      rcases h1 with h | h <;> simp [h]
    simp [engine_run, hcond, h2]
  · intro kvs h1 h2 h3 h4
    have hcond : ¬(rc ≠ 0 ∧ pyStrip out = []) := by simp [h2]
    have hne1 : ("error" : String) ≠ ("ok") := by decide
    have hne2 : ("ok" : String) ≠ ("error") := by decide
    have hrun : engine_run rc out errT args =
        Except.ok (JVal.jobj (dictSet (dictSet kvs ("ok") (JVal.jbool false)) ("error")
          ((dictGet (dictSet kvs ("ok") (JVal.jbool false)) ("error")).getD
            (JVal.jstr (("engine_nonzero_exit").toList))))) := by
      simp [engine_run, h3, h4, h1, h2]
    rw [hrun]
    constructor
    · simp only [jgetRes, jget]
      rw [dictGet_dictSet_ne _ _ _ _ hne1, dictGet_dictSet_same]
    · simp only [jgetRes, jget]
      rw [dictGet_dictSet_same, dictGet_dictSet_ne _ _ _ _ hne2]

/-- C9 counterexample: with exit code 1 and response `{"ok": true, "error":
"boom"}`, the client normalizes to failure but reports the response's own
`error` value, not `engine_nonzero_exit` as the claim states. -/
theorem c9_engine_client_failure_modes_cex :
    jgetRes (engine_run 1 (("\x7b\"ok\": true, \"error\": \"boom\"\x7d").toList) [] [])
        ("ok") = some (JVal.jbool false) ∧
    jgetRes (engine_run 1 (("\x7b\"ok\": true, \"error\": \"boom\"\x7d").toList) [] [])
        ("error") = some (JVal.jstr (("boom").toList)) ∧
    ("boom").toList ≠ ("engine_nonzero_exit").toList :=
  ⟨rfl, rfl, by decide⟩

theorem c9_engine_client_failure_modes_witness :
    engine_run 1 [] (("boom").toList) [("x")] =
      Except.ok (engineFailedPayload (("boom").toList) [("x")]) ∧
    engine_run 0 (("xx").toList) [] [] =
      Except.ok (engineInvalidJsonPayload (("xx").toList) [] []) ∧
    jgetRes (engine_run 1 (("\x7b\"ok\": true\x7d").toList) [] []) ("ok") =
      some (JVal.jbool false) ∧
    jgetRes (engine_run 1 (("\x7b\"ok\": true\x7d").toList) [] []) ("error") =
      some ((dictGet [(("ok"), JVal.jbool true)] ("error")).getD
        (JVal.jstr (("engine_nonzero_exit").toList))) := by
  refine ⟨(c9_engine_client_failure_modes 1 [] (("boom").toList) [("x")]).1
      (by decide) rfl,
    (c9_engine_client_failure_modes 0 (("xx").toList) [] []).2.1 (Or.inl rfl) rfl,
    ((c9_engine_client_failure_modes 1 (("\x7b\"ok\": true\x7d").toList) [] []).2.2
      [(("ok"), JVal.jbool true)] (by decide) (by decide) rfl rfl).1,
    ((c9_engine_client_failure_modes 1 (("\x7b\"ok\": true\x7d").toList) [] []).2.2
      [(("ok"), JVal.jbool true)] (by decide) (by decide) rfl rfl).2⟩

/-- C1 (amended): a build invocation exceeding its timeout is abandoned, and
`subprocess.TimeoutExpired` propagates out of `run_workflow` uncaught: the run
terminates with an escaped exception, producing no verdict — there is no
`timeout` error kind. -/
theorem c1_build_timeout_uncaught (w : World) :
    (w.build1 = none →
      run_workflow w = (Except.error PyExn.timeoutExpired,
        [Event.artifact ("task.txt"), Event.artifact ("plan.json"), Event.buildRun])) ∧
    (∀ b kvs akvs content, w.build1 = some b → b.code ≠ 0 →
      extract_missing_includes b.stderrText ≠ [] →
      w.readRes = JVal.jobj kvs → truthyO (dictGet kvs ("ok")) = true →
      dictGet kvs ("content") = some (JVal.jstr content) →
      finalHeaders b.stderrText content ≠ [] →
      w.applyRes = JVal.jobj akvs → truthyO (dictGet akvs ("ok")) = true →
      w.build2 = none →
      (run_workflow w).1 = Except.error PyExn.timeoutExpired) := by
  constructor
  · intro h
    simp [run_workflow, runCmd, h]
  · intro b kvs akvs content hb hc hx hr hok hct hfh ha haok h2
    simp [run_workflow, runCmd, hb, hc, hx, hr, hok, hct, hfh, ha, haok, h2]

theorem c1_build_timeout_uncaught_witness :
    run_workflow c1World = (Except.error PyExn.timeoutExpired,
      [Event.artifact ("task.txt"), Event.artifact ("plan.json"), Event.buildRun]) :=
  (c1_build_timeout_uncaught c1World).1 rfl

/-- C1 counterexample: on a timed-out first build, the run does not terminate
with any failure verdict (let alone one of error kind `timeout`); the
exception escapes instead. -/
theorem c1_no_timeout_verdict_cex :
    returnedVerdict (run_workflow c1World) = false ∧
    (run_workflow c1World).1 = Except.error PyExn.timeoutExpired :=
  ⟨rfl, rfl⟩

/-- C3: when the first build fails and its stderr contains no recognized
diagnostic signature, the extractor yields nothing and the run halts with
`unsupported_build_error` carrying the raw first build result, having issued
no external-engine call and written no edit artifact. -/
theorem c3_unsupported_build_error_halts (w : World) (b : ProcOut)
    (hb : w.build1 = some b) (hc : b.code ≠ 0)
    (hsig : anySignature b.stderrText = false) :
    extract_missing_includes b.stderrText = [] ∧
    run_workflow w = (Except.ok (Verdict.unsupportedBuildError (toString w.nowMs)
        ⟨b.code, b.stdoutText, b.stderrText, [("./build.sh")]⟩),
      [Event.artifact ("task.txt"), Event.artifact ("plan.json"), Event.buildRun,
       Event.artifact ("build_0.json")]) ∧
    (∀ ev ∈ (run_workflow w).2, ev.isEngineCall = false) ∧
    Event.artifact ("edits.json") ∉ (run_workflow w).2 := by
  have h := hsig
  simp only [anySignature, Bool.or_eq_false_iff] at h
  obtain ⟨⟨⟨⟨⟨h1, h2⟩, h3⟩, h4⟩, h5⟩, h6⟩ := h
  have hext : extract_missing_includes b.stderrText = [] := by
    simp [extract_missing_includes, h1, h2, h3, h4, h5, h6]
  have hrw : run_workflow w = (Except.ok (Verdict.unsupportedBuildError
      (toString w.nowMs) ⟨b.code, b.stdoutText, b.stderrText, [("./build.sh")]⟩),
      [Event.artifact ("task.txt"), Event.artifact ("plan.json"), Event.buildRun,
       Event.artifact ("build_0.json")]) := by
    simp [run_workflow, runCmd, hb, hc, hext]
  refine ⟨hext, hrw, ?_, ?_⟩ <;> rw [hrw] <;> simp [Event.isEngineCall]

theorem c3_unsupported_build_error_halts_witness :
    run_workflow c3World = (Except.ok (Verdict.unsupportedBuildError ("4")
        ⟨2, [], ldErrText, [("./build.sh")]⟩),
      [Event.artifact ("task.txt"), Event.artifact ("plan.json"), Event.buildRun,
       Event.artifact ("build_0.json")]) :=
  (c3_unsupported_build_error_halts c3World ⟨2, [], ldErrText⟩ rfl (by decide)
    (by decide)).2.1

/-- C4: a first build exiting 0 returns the success verdict with message
`build already OK` at once; no engine call is made and no edit or apply
artifact is written. -/
theorem c4_build_already_ok_short_circuit (w : World) (b : ProcOut)
    (hb : w.build1 = some b) (hc : b.code = 0) :
    run_workflow w = (Except.ok (Verdict.buildAlreadyOK (toString w.nowMs)
        ("build already OK")),
      [Event.artifact ("task.txt"), Event.artifact ("plan.json"), Event.buildRun,
       Event.artifact ("build_0.json")]) ∧
    (∀ ev ∈ (run_workflow w).2, ev.isEngineCall = false) ∧
    Event.artifact ("edits.json") ∉ (run_workflow w).2 ∧
    Event.artifact ("apply.json") ∉ (run_workflow w).2 := by
  have hrw : run_workflow w = (Except.ok (Verdict.buildAlreadyOK (toString w.nowMs)
      ("build already OK")),
      [Event.artifact ("task.txt"), Event.artifact ("plan.json"), Event.buildRun,
       Event.artifact ("build_0.json")]) := by
    simp [run_workflow, runCmd, hb, hc]
  refine ⟨hrw, ?_, ?_, ?_⟩ <;> rw [hrw] <;> simp [Event.isEngineCall]

theorem c4_build_already_ok_short_circuit_witness :
    run_workflow c4World = (Except.ok (Verdict.buildAlreadyOK ("3")
        ("build already OK")),
      [Event.artifact ("task.txt"), Event.artifact ("plan.json"), Event.buildRun,
       Event.artifact ("build_0.json")]) :=
  (c4_build_already_ok_short_circuit c4World ⟨0, [], []⟩ rfl rfl).1

theorem run_workflow_after_apply (w : World) (b : ProcOut)
    (kvs akvs : List (String × JVal)) (content : List Char)
    (hb : w.build1 = some b) (hc : b.code ≠ 0)
    (hx : extract_missing_includes b.stderrText ≠ [])
    (hr : w.readRes = JVal.jobj kvs) (hok : truthyO (dictGet kvs ("ok")) = true)
    (hct : dictGet kvs ("content") = some (JVal.jstr content))
    (hfh : finalHeaders b.stderrText content ≠ [])
    (ha : w.applyRes = JVal.jobj akvs) (haok : truthyO (dictGet akvs ("ok")) = true) :
    run_workflow w =
      match w.build2 with
      | none => (Except.error PyExn.timeoutExpired,
          traceToApply b.stderrText content ++ [Event.buildRun])
      | some p2 =>
        if p2.code ≠ 0 then
          (Except.ok (Verdict.stillFailing (toString w.nowMs)
            ⟨p2.code, p2.stdoutText, p2.stderrText, [("./build.sh")]⟩),
           traceToApply b.stderrText content ++
             [Event.buildRun, Event.artifact ("build_1.json")])
        else
          (Except.ok (Verdict.fixedMissingInclude (toString w.nowMs)
            (finalHeaders b.stderrText content) (dictGet akvs ("snapshot_id"))),
           traceToApply b.stderrText content ++
             [Event.buildRun, Event.artifact ("build_1.json")]) := by
  cases h2 : w.build2 with
  | none =>
    simp [run_workflow, runCmd, hb, hc, hx, hr, hok, hct, hfh, ha, haok, h2, traceToApply]
  | some p2 =>
    by_cases hc2 : p2.code = 0 <;>
      simp [run_workflow, runCmd, hb, hc, hx, hr, hok, hct, hfh, ha, haok, h2, hc2,
        traceToApply]

/-- C2: once the apply step has succeeded, exactly one further build runs and
it alone decides the verdict — exit 0 yields success carrying the added
header list and the snapshot id from the apply payload, non-zero yields
`still_failing` carrying the second BuildResult — and only one apply is ever
issued. -/
theorem c2_second_build_decides_verdict (w : World) (b p2 : ProcOut)
    (kvs akvs : List (String × JVal)) (content : List Char)
    (hb : w.build1 = some b) (hc : b.code ≠ 0)
    (hx : extract_missing_includes b.stderrText ≠ [])
    (hr : w.readRes = JVal.jobj kvs) (hok : truthyO (dictGet kvs ("ok")) = true)
    (hct : dictGet kvs ("content") = some (JVal.jstr content))
    (hfh : finalHeaders b.stderrText content ≠ [])
    (ha : w.applyRes = JVal.jobj akvs) (haok : truthyO (dictGet akvs ("ok")) = true)
    (h2 : w.build2 = some p2) :
    (run_workflow w).2.countP Event.isBuild = 2 ∧
    (run_workflow w).2.countP Event.isApply = 1 ∧
    (p2.code = 0 →
      (run_workflow w).1 = Except.ok (Verdict.fixedMissingInclude (toString w.nowMs)
        (finalHeaders b.stderrText content) (dictGet akvs ("snapshot_id")))) ∧
    (p2.code ≠ 0 →
      (run_workflow w).1 = Except.ok (Verdict.stillFailing (toString w.nowMs)
        ⟨p2.code, p2.stdoutText, p2.stderrText, [("./build.sh")]⟩)) := by
  have hrw := run_workflow_after_apply w b kvs akvs content hb hc hx hr hok hct hfh ha haok
  rw [h2] at hrw
  by_cases hc2 : p2.code = 0 <;>
    rw [hrw] <;>
      simp [hc2, traceToApply, Event.isBuild, Event.isApply]

theorem c2_second_build_decides_verdict_witness :
    (run_workflow c2World).2.countP Event.isBuild = 2 ∧
    (run_workflow c2World).2.countP Event.isApply = 1 ∧
    (run_workflow c2World).1 = Except.ok (Verdict.fixedMissingInclude ("5")
      (finalHeaders chronoErrText (("int x;\n").toList))
      (some (JVal.jstr (("s1").toList)))) := by
  have h := c2_second_build_decides_verdict c2World ⟨1, [], chronoErrText⟩ ⟨0, [], []⟩
    [(("ok"), JVal.jbool true), (("content"), JVal.jstr (("int x;\n").toList))]
    [(("ok"), JVal.jbool true), (("snapshot_id"), JVal.jstr (("s1").toList))]
    (("int x;\n").toList) rfl (by decide) (by decide) rfl rfl rfl (by decide) rfl rfl rfl
  exact ⟨h.1, h.2.1, h.2.2.1 rfl⟩

/-- C8: the final missing-header list never retains a header whose include
line is already in the content, and when nothing remains the run ends with
`includes_already_present`, no edit artifact and no apply call. -/
theorem c8_no_already_present_header (w : World) (b : ProcOut)
    (kvs : List (String × JVal)) (content : List Char)
    (hb : w.build1 = some b) (hc : b.code ≠ 0)
    (hx : extract_missing_includes b.stderrText ≠ [])
    (hr : w.readRes = JVal.jobj kvs) (hok : truthyO (dictGet kvs ("ok")) = true)
    (hct : dictGet kvs ("content") = some (JVal.jstr content)) :
    (∀ h ∈ finalHeaders b.stderrText content, isSubstr (includeLine h) content = false) ∧
    (finalHeaders b.stderrText content = [] →
      run_workflow w = (Except.ok (Verdict.includesAlreadyPresent (toString w.nowMs)),
        [Event.artifact ("task.txt"), Event.artifact ("plan.json"), Event.buildRun,
         Event.artifact ("build_0.json"), Event.engineSearch,
         Event.artifact ("retrieve.json"), Event.engineRead]) ∧
      (∀ ev ∈ (run_workflow w).2, ev.isApply = false) ∧
      Event.artifact ("edits.json") ∉ (run_workflow w).2) := by
  constructor
  · intro h hmem
    unfold finalHeaders at hmem
    have hp := List.of_mem_filter hmem
    simpa using hp
  · intro hempty
    have hrw : run_workflow w = (Except.ok (Verdict.includesAlreadyPresent
        (toString w.nowMs)),
        [Event.artifact ("task.txt"), Event.artifact ("plan.json"), Event.buildRun,
         Event.artifact ("build_0.json"), Event.engineSearch,
         Event.artifact ("retrieve.json"), Event.engineRead]) := by
      simp [run_workflow, runCmd, hb, hc, hx, hr, hok, hct, hempty]
    refine ⟨hrw, ?_, ?_⟩ <;> rw [hrw] <;> simp [Event.isApply]

theorem c8_no_already_present_header_witness :
    run_workflow c8World = (Except.ok (Verdict.includesAlreadyPresent ("6")),
      [Event.artifact ("task.txt"), Event.artifact ("plan.json"), Event.buildRun,
       Event.artifact ("build_0.json"), Event.engineSearch,
       Event.artifact ("retrieve.json"), Event.engineRead]) :=
  (((c8_no_already_present_header c8World ⟨1, [], threadErrText⟩
    [(("ok"), JVal.jbool true),
     (("content"), JVal.jstr (("#include <thread>\nint x;\n").toList))]
    (("#include <thread>\nint x;\n").toList)
    rfl (by decide) (by decide) rfl rfl rfl).2) (by decide)).1

theorem splitlinesAux_cons (c : Char) (s acc : List Char) :
    splitlinesAux (c :: s) acc =
      if isLineBreak c then
        acc.reverse ::
          (if c == '\r' then
            match s with
            | [] => splitlinesAux [] []
            | c2 :: rest2 =>
              if c2 == '\n' then splitlinesAux rest2 [] else splitlinesAux (c2 :: rest2) []
          else splitlinesAux s [])
      else splitlinesAux s (c :: acc) := by
  rw [splitlinesAux.eq_def]

theorem splitlinesAux_nil (acc : List Char) :
    splitlinesAux [] acc = if acc.isEmpty then [] else [acc.reverse] := by
  rw [splitlinesAux.eq_def]

theorem splitlinesAux_nonbreak (c : Char) (s acc : List Char)
    (hc : isLineBreak c = false) :
    splitlinesAux (c :: s) acc = splitlinesAux s (c :: acc) := by
  rw [splitlinesAux_cons]
  simp [hc]

theorem splitlinesAux_break_notcr (c : Char) (s acc : List Char)
    (hbr : isLineBreak c = true) (hcr : (c == '\r') = false) :
    splitlinesAux (c :: s) acc = acc.reverse :: splitlinesAux s [] := by
  rw [splitlinesAux_cons]
  simp [hbr, hcr]

theorem splitlinesAux_cr_lf (s acc : List Char) :
    splitlinesAux ('\r' :: '\n' :: s) acc = acc.reverse :: splitlinesAux s [] := by
  rw [splitlinesAux_cons]
  simp [isLineBreak]

theorem splitlinesAux_cr_nil (acc : List Char) :
    splitlinesAux [('\r' : Char)] acc = [acc.reverse] := by
  rw [splitlinesAux_cons]
  simp [isLineBreak, splitlinesAux_nil]

theorem splitlinesAux_cr_notlf (c2 : Char) (s acc : List Char)
    (h : (c2 == '\n') = false) :
    splitlinesAux ('\r' :: c2 :: s) acc = acc.reverse :: splitlinesAux (c2 :: s) [] := by
  rw [splitlinesAux_cons]
  simp [isLineBreak, h]

theorem joinNL_cons_cons (l l2 : List Char) (ls : List (List Char)) :
    joinNL (l :: l2 :: ls) = l ++ '\n' :: joinNL (l2 :: ls) := rfl

theorem splitlinesAux_seg (l : List Char) (hl : ∀ c ∈ l, isLineBreak c = false) :
    ∀ (rest acc : List Char),
      splitlinesAux (l ++ '\n' :: rest) acc = (acc.reverse ++ l) :: splitlinesAux rest [] := by
  induction l with
  | nil =>
    intro rest acc
    rw [List.nil_append, splitlinesAux_break_notcr '\n' rest acc (by decide) (by decide)]
    simp
  | cons c l ih =>
    intro rest acc
    have hc : isLineBreak c = false := hl c (by simp)
    rw [List.cons_append, splitlinesAux_nonbreak c _ _ hc,
      ih (fun c2 h2 => hl c2 (by simp [h2])) rest (c :: acc)]
    simp

theorem splitlinesAux_all_nonbreak (l : List Char) (hl : ∀ c ∈ l, isLineBreak c = false) :
    ∀ acc : List Char, l ≠ [] ∨ acc ≠ [] → splitlinesAux l acc = [acc.reverse ++ l] := by
  induction l with
  | nil =>
    intro acc hne
    have hacc : acc ≠ [] := by
      rcases hne with h | h
      · exact absurd rfl h
      · exact h
    rw [splitlinesAux_nil]
    simp [List.isEmpty_iff, hacc]
  | cons c l ih =>
    intro acc _
    have hc : isLineBreak c = false := hl c (by simp)
    rw [splitlinesAux_nonbreak c _ _ hc,
      ih (fun c2 h2 => hl c2 (by simp [h2])) (c :: acc) (Or.inr (by simp))]
    simp

theorem splitlines_join_newline (ls : List (List Char))
    (h : ∀ l ∈ ls, ∀ c ∈ l, isLineBreak c = false) (hne : ls ≠ []) :
    splitlines (joinNL ls ++ [('\n' : Char)]) = ls := by
  induction ls with
  | nil => exact absurd rfl hne
  | cons l ls ih =>
    cases ls with
    | nil =>
      show splitlinesAux (l ++ '\n' :: []) [] = [l]
      rw [splitlinesAux_seg l (h l (by simp)) [] []]
      simp [splitlinesAux_nil]
    | cons l2 ls2 =>
      show splitlinesAux ((l ++ '\n' :: joinNL (l2 :: ls2)) ++ [('\n' : Char)]) [] = _
      rw [List.append_assoc, List.cons_append,
        splitlinesAux_seg l (h l (by simp)) _ []]
      have := ih (fun x hx => h x (by simp [hx])) (by simp)
      rw [show splitlinesAux (joinNL (l2 :: ls2) ++ [('\n' : Char)]) [] =
        splitlines (joinNL (l2 :: ls2) ++ [('\n' : Char)]) from rfl, this]
      simp

theorem splitlines_join (ls : List (List Char))
    (h : ∀ l ∈ ls, ∀ c ∈ l, isLineBreak c = false) (hne : ls ≠ [])
    (hlast : ls.getLast? ≠ some []) :
    splitlines (joinNL ls) = ls := by
  induction ls with
  | nil => exact absurd rfl hne
  | cons l ls ih =>
    cases ls with
    | nil =>
      have hl : l ≠ [] := by
        intro h2
        subst h2
        exact hlast rfl
      show splitlinesAux l [] = [l]
      rw [splitlinesAux_all_nonbreak l (h l (by simp)) [] (Or.inl hl)]
      simp
    | cons l2 ls2 =>
      show splitlinesAux (l ++ '\n' :: joinNL (l2 :: ls2)) [] = _
      rw [splitlinesAux_seg l (h l (by simp)) _ []]
      have hlast2 : (l2 :: ls2).getLast? ≠ some [] := by
        rwa [List.getLast?_cons_cons] at hlast
      have := ih (fun x hx => h x (by simp [hx])) (by simp) hlast2
      rw [show splitlinesAux (joinNL (l2 :: ls2)) [] =
        splitlines (joinNL (l2 :: ls2)) from rfl, this]
      simp

theorem splitlinesAux_mem_noBreak (n : Nat) :
    ∀ (s acc : List Char), s.length ≤ n → (∀ c ∈ acc, isLineBreak c = false) →
      ∀ l ∈ splitlinesAux s acc, ∀ c ∈ l, isLineBreak c = false := by
  induction n with
  | zero =>
    intro s acc hlen hacc
    have hs : s = [] := by
      cases s with
      | nil => rfl
      | cons a t => simp at hlen
    subst hs
    rw [splitlinesAux_nil]
    intro l hl c hc
    rcases hacc2 : acc.isEmpty with h | h
    · simp [hacc2] at hl
      subst hl
      exact hacc c (by simpa using hc)
    · simp [hacc2] at hl
  | succ n ih =>
    intro s acc hlen hacc
    cases s with
    | nil =>
      rw [splitlinesAux_nil]
      intro l hl c hc
      rcases hacc2 : acc.isEmpty with h | h
      · simp [hacc2] at hl
        subst hl
        exact hacc c (by simpa using hc)
      · simp [hacc2] at hl
    | cons d rest =>
      by_cases hbd : isLineBreak d = true
      · by_cases hdr : (d == '\r') = true
        · have hd : d = '\r' := eq_of_beq hdr
          subst hd
          cases rest with
          | nil =>
            rw [splitlinesAux_cr_nil]
            intro l hl c hc
            simp at hl
            subst hl
            exact hacc c (by simpa using hc)
          | cons e rest2 =>
            by_cases hel : (e == '\n') = true
            · have he : e = '\n' := eq_of_beq hel
              subst he
              rw [splitlinesAux_cr_lf]
              intro l hl c hc
              rcases List.mem_cons.mp hl with h | h
              · subst h; exact hacc c (by simpa using hc)
              · exact ih rest2 [] (by simp at hlen; omega) (by simp) l h c hc
            · rw [splitlinesAux_cr_notlf e rest2 acc (by simpa using hel)]
              intro l hl c hc
              rcases List.mem_cons.mp hl with h | h
              · subst h; exact hacc c (by simpa using hc)
              · exact ih (e :: rest2) [] (by simp at hlen ⊢; omega) (by simp) l h c hc
        · rw [splitlinesAux_break_notcr d rest acc hbd (by simpa using hdr)]
          intro l hl c hc
          rcases List.mem_cons.mp hl with h | h
          · subst h; exact hacc c (by simpa using hc)
          · exact ih rest [] (by simp at hlen; omega) (by simp) l h c hc
      · rw [splitlinesAux_nonbreak d rest acc (by simpa using hbd)]
        intro l hl c hc
        refine ih rest (d :: acc) (by simp at hlen; omega) ?_ l hl c hc
        intro c2 hc2
        rcases List.mem_cons.mp hc2 with h | h
        · subst h; simpa using hbd
        · exact hacc c2 h

theorem splitlines_mem_noBreak (s : List Char) :
    ∀ l ∈ splitlines s, ∀ c ∈ l, isLineBreak c = false :=
  splitlinesAux_mem_noBreak s.length s [] (le_refl _) (by simp)

theorem splitlinesAux_ne_nil (n : Nat) :
    ∀ (s acc : List Char), s.length ≤ n → s ≠ [] ∨ acc ≠ [] →
      splitlinesAux s acc ≠ [] := by
  induction n with
  | zero =>
    intro s acc hlen hne
    have hs : s = [] := by
      cases s with
      | nil => rfl
      | cons a t => simp at hlen
    subst hs
    have hacc : acc ≠ [] := by
      rcases hne with h | h
      · exact absurd rfl h
      · exact h
    rw [splitlinesAux_nil]
    simp [List.isEmpty_iff, hacc]
  | succ n ih =>
    intro s acc hlen hne
    cases s with
    | nil =>
      have hacc : acc ≠ [] := by
        rcases hne with h | h
        · exact absurd rfl h
        · exact h
      rw [splitlinesAux_nil]
      simp [List.isEmpty_iff, hacc]
    | cons d rest =>
      by_cases hbd : isLineBreak d = true
      · by_cases hdr : (d == '\r') = true
        · have hd : d = '\r' := eq_of_beq hdr
          subst hd
          cases rest with
          | nil => rw [splitlinesAux_cr_nil]; simp
          | cons e rest2 =>
            by_cases hel : (e == '\n') = true
            · have he : e = '\n' := eq_of_beq hel
              subst he
              rw [splitlinesAux_cr_lf]
              simp
            · rw [splitlinesAux_cr_notlf e rest2 acc (by simpa using hel)]
              simp
        · rw [splitlinesAux_break_notcr d rest acc hbd (by simpa using hdr)]
          simp
      · rw [splitlinesAux_nonbreak d rest acc (by simpa using hbd)]
        exact ih rest (d :: acc) (by simp at hlen; omega) (Or.inr (by simp))

theorem splitlines_ne_nil (s : List Char) (hs : s ≠ []) : splitlines s ≠ [] :=
  splitlinesAux_ne_nil s.length s [] (le_refl _) (Or.inl hs)

theorem splitlinesAux_last_ne (n : Nat) :
    ∀ (s acc : List Char) (c0 : Char), s.length ≤ n → s.getLast? = some c0 →
      isLineBreak c0 = false → (splitlinesAux s acc).getLast? ≠ some [] := by
  induction n with
  | zero =>
    intro s acc c0 hlen hc0 _
    have hs : s = [] := by
      cases s with
      | nil => rfl
      | cons a t => simp at hlen
    subst hs
    simp at hc0
  | succ n ih =>
    intro s acc c0 hlen hc0 hnb
    cases s with
    | nil => simp at hc0
    | cons d rest =>
      cases rest with
      | nil =>
        have hd : d = c0 := by simpa using hc0
        subst hd
        rw [splitlinesAux_nonbreak d [] acc hnb, splitlinesAux_nil]
        simp
      | cons e rest2 =>
        have hc0r : (e :: rest2).getLast? = some c0 := by
          rwa [List.getLast?_cons_cons] at hc0
        by_cases hbd : isLineBreak d = true
        · by_cases hdr : (d == '\r') = true
          · have hd : d = '\r' := eq_of_beq hdr
            subst hd
            by_cases hel : (e == '\n') = true
            · have he : e = '\n' := eq_of_beq hel
              subst he
              rw [splitlinesAux_cr_lf]
              cases rest2 with
              | nil =>
                simp at hc0r
                subst hc0r
                simp [isLineBreak] at hnb
              | cons f rest3 =>
                have hc0r2 : (f :: rest3).getLast? = some c0 := by
                  rwa [List.getLast?_cons_cons] at hc0r
                have hrec := ih (f :: rest3) [] c0 (by simp at hlen ⊢; omega) hc0r2 hnb
                have hrecne := splitlinesAux_ne_nil (f :: rest3).length (f :: rest3) []
                  (le_refl _) (Or.inl (by simp))
                cases hsp : splitlinesAux (f :: rest3) [] with
                | nil => exact absurd hsp hrecne
                | cons x xs =>
                  rw [List.getLast?_cons_cons]
                  rw [hsp] at hrec
                  exact hrec
            · rw [splitlinesAux_cr_notlf e rest2 acc (by simpa using hel)]
              have hrec := ih (e :: rest2) [] c0 (by simp at hlen ⊢; omega) hc0r hnb
              have hrecne := splitlinesAux_ne_nil (e :: rest2).length (e :: rest2) []
                (le_refl _) (Or.inl (by simp))
              cases hsp : splitlinesAux (e :: rest2) [] with
              | nil => exact absurd hsp hrecne
              | cons x xs =>
                rw [List.getLast?_cons_cons]
                rw [hsp] at hrec
                exact hrec
          · rw [splitlinesAux_break_notcr d (e :: rest2) acc hbd (by simpa using hdr)]
            have hrec := ih (e :: rest2) [] c0 (by simp at hlen ⊢; omega) hc0r hnb
            have hrecne := splitlinesAux_ne_nil (e :: rest2).length (e :: rest2) []
              (le_refl _) (Or.inl (by simp))
            cases hsp : splitlinesAux (e :: rest2) [] with
            | nil => exact absurd hsp hrecne
            | cons x xs =>
              rw [List.getLast?_cons_cons]
              rw [hsp] at hrec
              exact hrec
        · rw [splitlinesAux_nonbreak d (e :: rest2) acc (by simpa using hbd)]
          exact ih (e :: rest2) (d :: acc) c0 (by simp at hlen ⊢; omega) hc0r hnb

theorem splitlines_last_ne (s : List Char) (c0 : Char) (hc0 : s.getLast? = some c0)
    (hnb : isLineBreak c0 = false) : (splitlines s).getLast? ≠ some [] :=
  splitlinesAux_last_ne s.length s [] c0 (le_refl _) hc0 hnb

theorem joinNL_ne_nil (ls : List (List Char)) (hne : ls ≠ [])
    (hlast : ls.getLast? ≠ some []) : joinNL ls ≠ [] := by
  cases ls with
  | nil => exact absurd rfl hne
  | cons l ls =>
    cases ls with
    | nil =>
      have hl : l ≠ [] := by
        intro h2; subst h2; exact hlast rfl
      simpa [joinNL] using hl
    | cons l2 ls2 =>
      rw [joinNL_cons_cons]
      simp

theorem joinNL_getLast? (ls : List (List Char)) (ll : List Char)
    (hlast : ls.getLast? = some ll) (hll : ll ≠ []) :
    (joinNL ls).getLast? = ll.getLast? := by
  induction ls with
  | nil => simp at hlast
  | cons l ls ih =>
    cases ls with
    | nil =>
      have : l = ll := by simpa using hlast
      subst this
      rfl
    | cons l2 ls2 =>
      have hlast2 : (l2 :: ls2).getLast? = some ll := by
        rwa [List.getLast?_cons_cons] at hlast
      rw [joinNL_cons_cons, List.getLast?_append_cons]
      have hJ : joinNL (l2 :: ls2) ≠ [] := by
        refine joinNL_ne_nil (l2 :: ls2) (by simp) ?_
        rw [hlast2]
        simp [hll]
      cases hsp : joinNL (l2 :: ls2) with
      | nil => exact absurd hsp hJ
      | cons x xs =>
        rw [List.getLast?_cons_cons]
        rw [← hsp, ih hlast2]

theorem includeLine_noBreak (hd : String) (hh : ∀ c ∈ hd.toList, isLineBreak c = false) :
    ∀ c ∈ includeLine hd, isLineBreak c = false := by
  have h1 : ∀ c ∈ ("#include <").toList, isLineBreak c = false := by decide
  intro c hc
  rcases List.mem_append.mp hc with hc2 | hc2
  · rcases List.mem_append.mp hc2 with h3 | h3
    · exact h1 c h3
    · exact hh c h3
  · have : c = '>' := by simpa using hc2
    subst this
    decide

theorem includeLine_ne_nil (hd : String) : includeLine hd ≠ [] := by
  simp [includeLine]

theorem getLast?_mem {α : Type} (l : List α) (x : α) (h : l.getLast? = some x) :
    x ∈ l := by
  have h2 : x ∈ l.getLast? := by rw [h]; rfl
  obtain ⟨hne2, heq⟩ := List.mem_getLast?_eq_getLast h2
  rw [heq]
  exact List.getLast_mem hne2

theorem map_includeLine_getLast?_ne (headers : List String) :
    (headers.map includeLine).getLast? ≠ some [] := by
  intro hcon
  have hmem : ([] : List Char) ∈ headers.map includeLine :=
    getLast?_mem _ _ hcon
  obtain ⟨hd, _, heq⟩ := List.mem_map.mp hmem
  exact includeLine_ne_nil hd heq

/-- C5 (amended): when the content does not end in a line terminator other
than a newline, and the dependency names contain no line-terminator
characters, re-splitting the synthesized replacement yields exactly the
original lines with the new include lines inserted once at the computed
position, and the replacement ends with a trailing newline iff the content
did. -/
theorem c5_synthesis_roundtrip (content : List Char) (headers : List String)
    (hhe : headers ≠ [])
    (hh : ∀ hd ∈ headers, ∀ c ∈ hd.toList, isLineBreak c = false)
    (hend : ∀ c, content.getLast? = some c → c = '\n' ∨ isLineBreak c = false) :
    splitlines (synthesize content headers) = new_lines content headers ∧
    endswithNL (synthesize content headers) = endswithNL content := by
  have hNok : ∀ l ∈ new_lines content headers, ∀ c ∈ l, isLineBreak c = false := by
    intro l hl
    unfold new_lines at hl
    rcases List.mem_append.mp hl with h1 | h1
    · rcases List.mem_append.mp h1 with h2 | h2
      · exact splitlines_mem_noBreak content l (List.take_subset _ _ h2)
      · obtain ⟨hd, hdmem, heq⟩ := List.mem_map.mp h2
        rw [← heq]
        exact includeLine_noBreak hd (hh hd hdmem)
    · exact splitlines_mem_noBreak content l (List.drop_subset _ _ h1)
  have hNne : new_lines content headers ≠ [] := by
    unfold new_lines
    simp [hhe]
  by_cases hnl : endswithNL content = true
  · have hsy : synthesize content headers =
        joinNL (new_lines content headers) ++ [('\n' : Char)] := by
      unfold synthesize
      rw [if_pos hnl]
    refine ⟨?_, ?_⟩
    · rw [hsy]
      exact splitlines_join_newline _ hNok hNne
    · rw [hsy, hnl]
      unfold endswithNL
      rw [List.getLast?_concat]
      rfl
  · have hnl2 : endswithNL content = false := by simpa using hnl
    have hsy : synthesize content headers = joinNL (new_lines content headers) := by
      simp [synthesize, hnl2]
    have hNlast : (new_lines content headers).getLast? ≠ some [] := by
      by_cases hcn : content = []
      · subst hcn
        have hN : new_lines [] headers = headers.map includeLine := by
          simp [new_lines, splitlines, splitlinesAux_nil, insert_at, insertAtAux]
        rw [hN]
        exact map_includeLine_getLast?_ne headers
      · obtain ⟨clast, hclast⟩ : ∃ c1, content.getLast? = some c1 := by
          rw [List.getLast?_eq_getLast_of_ne_nil hcn]
          exact ⟨_, rfl⟩
        have hcnb : isLineBreak clast = false := by
          rcases hend clast hclast with h | h
          · exfalso
            rw [h] at hclast
            have : endswithNL content = true := by
              unfold endswithNL
              rw [hclast]
              rfl
            rw [this] at hnl2
            simp at hnl2
          · exact h
        have hLlast := splitlines_last_ne content clast hclast hcnb
        cases hdrop : (splitlines content).drop (insert_at (splitlines content)) with
        | nil =>
          have h1 : (new_lines content headers).getLast? =
              (headers.map includeLine).getLast? := by
            simp only [new_lines]
            rw [hdrop, List.append_nil,
              List.getLast?_append_of_ne_nil _ (by simp [hhe])]
          rw [h1]
          exact map_includeLine_getLast?_ne headers
        | cons x xs =>
          have h1 : (new_lines content headers).getLast? =
              ((splitlines content).drop (insert_at (splitlines content))).getLast? := by
            simp only [new_lines]
            rw [List.append_assoc,
              List.getLast?_append_of_ne_nil _ (by rw [hdrop]; simp),
              List.getLast?_append_of_ne_nil _ (by rw [hdrop]; simp)]
          have h2 : ((splitlines content).drop (insert_at (splitlines content))).getLast? =
              (splitlines content).getLast? := by
            conv_rhs => rw [← List.take_append_drop (insert_at (splitlines content))
              (splitlines content)]
            rw [List.getLast?_append_of_ne_nil _ (by rw [hdrop]; simp)]
          rw [h1, h2]
          exact hLlast
    refine ⟨?_, ?_⟩
    · rw [hsy]
      exact splitlines_join _ hNok hNne hNlast
    · rw [hsy, hnl2]
      obtain ⟨ll, hll⟩ : ∃ ll, (new_lines content headers).getLast? = some ll := by
        rw [List.getLast?_eq_getLast_of_ne_nil hNne]
        exact ⟨_, rfl⟩
      have hllne : ll ≠ [] := by
        intro h
        rw [h] at hll
        exact hNlast hll
      show ((joinNL (new_lines content headers)).getLast? == some '\n') = false
      rw [joinNL_getLast? _ ll hll hllne]
      obtain ⟨cl, hcl⟩ : ∃ cl, ll.getLast? = some cl := by
        rw [List.getLast?_eq_getLast_of_ne_nil hllne]
        exact ⟨_, rfl⟩
      have hclnb : isLineBreak cl = false :=
        hNok ll (getLast?_mem _ _ hll) cl (getLast?_mem _ _ hcl)
      have hclne : cl ≠ '\n' := by
        intro h
        rw [h] at hclnb
        simp [isLineBreak] at hclnb
      rw [hcl]
      simp [hclne]


/-- C5 counterexample: for the content consisting of a single carriage return
and dependency list `[chrono]`, re-splitting the synthesized replacement drops
the final empty line, and the replacement gains a trailing newline the content
did not have. -/
theorem c5_synthesis_roundtrip_cex :
    splitlines (synthesize [('\r' : Char)] [("chrono")]) ≠
      new_lines [('\r' : Char)] [("chrono")] ∧
    endswithNL (synthesize [('\r' : Char)] [("chrono")]) = true ∧
    endswithNL [('\r' : Char)] = false :=
  ⟨by decide, by decide, by decide⟩

theorem c5_synthesis_roundtrip_witness :
    splitlines (synthesize (("#include <vector>\nint x;\n").toList)
        [("chrono"), ("thread")]) =
      new_lines (("#include <vector>\nint x;\n").toList) [("chrono"), ("thread")] ∧
    endswithNL (synthesize (("#include <vector>\nint x;\n").toList)
        [("chrono"), ("thread")]) =
      endswithNL (("#include <vector>\nint x;\n").toList) :=
  c5_synthesis_roundtrip (("#include <vector>\nint x;\n").toList)
    [("chrono"), ("thread")] (by decide) (by decide)
    (by
      intro c hc
      have h : ((("#include <vector>\nint x;\n").toList)).getLast? = some '\n' := by
        decide
      rw [h] at hc
      refine Or.inl ?_
      injection hc with h2
      exact h2.symm)

theorem insertAtAux_no_include (ls : List (List Char)) :
    ∀ (i acc : Nat), (∀ l ∈ ls, listStartsWith (("#include").toList) l = false) →
      insertAtAux ls i acc = acc := by
  induction ls with
  | nil => intro i acc _; rfl
  | cons l rest ih =>
    intro i acc h
    have hl : listStartsWith (("#include").toList) l = false := h l (by simp)
    simp only [insertAtAux, hl]
    simpa using ih (i + 1) acc (fun x hx => h x (by simp [hx]))

/-- C10: when no line of the content starts with `#include`, the insertion
position is 0 and the new include lines go before all original lines. -/
theorem c10_insert_at_top_when_no_includes (content : List Char)
    (headers : List String)
    (hno : ∀ l ∈ splitlines content, listStartsWith (("#include").toList) l = false) :
    insert_at (splitlines content) = 0 ∧
    new_lines content headers = headers.map includeLine ++ splitlines content := by
  have h0 : insert_at (splitlines content) = 0 :=
    insertAtAux_no_include (splitlines content) 0 0 hno
  exact ⟨h0, by simp [new_lines, h0]⟩

theorem c10_insert_at_top_when_no_includes_witness :
    insert_at (splitlines (("int x;\nint y;\n").toList)) = 0 ∧
    new_lines (("int x;\nint y;\n").toList) [("chrono")] =
      [("chrono")].map includeLine ++ splitlines (("int x;\nint y;\n").toList) :=
  c10_insert_at_top_when_no_includes (("int x;\nint y;\n").toList) [("chrono")]
    (by decide)

/-- C6 (amended): every Edit submitted to the apply step targets `main.cpp`
and spans the whole current file, with start_line = 1 and end_line equal to
the line count of the content; when the content is non-empty this satisfies
1 = start_line ≤ end_line ≤ line count.  (For empty content the code submits
end_line = 0 < start_line.) -/
theorem c6_edit_spans_whole_file (w : World) (p : ProcOut)
    (kvs : List (String × JVal)) (content : List Char) (e : Edit)
    (hb1 : w.build1 = some p)
    (hr : w.readRes = JVal.jobj kvs)
    (hct : dictGet kvs ("content") = some (JVal.jstr content))
    (hcne : content ≠ [])
    (hmem : Event.engineApply e ∈ (run_workflow w).2) :
    e.path = ("main.cpp") ∧ e.start_line = 1 ∧
    e.end_line = (splitlines content).length ∧
    e.start_line ≤ e.end_line ∧ 1 ≤ e.end_line := by
  have hlenpos : 0 < (splitlines content).length := by
    cases hsp : splitlines content with
    | nil => exact absurd hsp (splitlines_ne_nil content hcne)
    | cons a t => simp
  have he : e = ⟨("main.cpp"), 1, (splitlines content).length,
      synthesize content (finalHeaders p.stderrText content)⟩ := by
    by_cases hc0 : p.code = 0
    · simp [run_workflow, runCmd, hb1, hc0] at hmem
    · by_cases hx : extract_missing_includes p.stderrText = []
      · simp [run_workflow, runCmd, hb1, hc0, hx] at hmem
      · by_cases hok : truthyO (dictGet kvs ("ok")) = false
        · simp [run_workflow, runCmd, hb1, hc0, hx, hr, hok] at hmem
        · have hok2 : truthyO (dictGet kvs ("ok")) = true := by simpa using hok
          by_cases hfh : finalHeaders p.stderrText content = []
          · simp [run_workflow, runCmd, hb1, hc0, hx, hr, hok2, hct, hfh] at hmem
          · cases ha : w.applyRes with
            | jobj akvs =>
              by_cases haok : truthyO (dictGet akvs ("ok")) = false
              · simpa [run_workflow, runCmd, hb1, hc0, hx, hr, hok2, hct, hfh, ha,
                  haok] using hmem
              · have haok2 : truthyO (dictGet akvs ("ok")) = true := by
                  simpa using haok
                cases hb2 : w.build2 with
                | none =>
                  simpa [run_workflow, runCmd, hb1, hc0, hx, hr, hok2, hct, hfh,
                    ha, haok2, hb2] using hmem
                | some p2 =>
                  by_cases hc2 : p2.code = 0
                  · simpa [run_workflow, runCmd, hb1, hc0, hx, hr, hok2, hct, hfh,
                      ha, haok2, hb2, hc2] using hmem
                  · simpa [run_workflow, runCmd, hb1, hc0, hx, hr, hok2, hct, hfh,
                      ha, haok2, hb2, hc2] using hmem
            | jnull =>
              simpa [run_workflow, runCmd, hb1, hc0, hx, hr, hok2, hct, hfh,
                ha] using hmem
            | jbool b =>
              simpa [run_workflow, runCmd, hb1, hc0, hx, hr, hok2, hct, hfh,
                ha] using hmem
            | jnum nraw =>
              simpa [run_workflow, runCmd, hb1, hc0, hx, hr, hok2, hct, hfh,
                ha] using hmem
            | jstr sraw =>
              simpa [run_workflow, runCmd, hb1, hc0, hx, hr, hok2, hct, hfh,
                ha] using hmem
            | jarr xs =>
              simpa [run_workflow, runCmd, hb1, hc0, hx, hr, hok2, hct, hfh,
                ha] using hmem
  subst he
  refine ⟨rfl, rfl, rfl, ?_, ?_⟩ <;> simpa using hlenpos

/-- C6 counterexample: with an empty target file, the run reaches the apply
step and submits an Edit with start_line = 1 and end_line = 0, so
start_line ≤ end_line fails. -/
theorem c6_edit_spans_whole_file_cex :
    Event.engineApply ⟨("main.cpp"), 1, 0, ("#include <chrono>").toList⟩ ∈
      (run_workflow c6World).2 ∧ ¬(1 ≤ (0 : Nat)) :=
  ⟨by decide, by decide⟩

theorem c6_edit_spans_whole_file_witness :
    (⟨("main.cpp"), 1, 1, synthesize (("int x;\n").toList)
        (finalHeaders chronoErrText (("int x;\n").toList))⟩ : Edit).start_line = 1 ∧
    (⟨("main.cpp"), 1, 1, synthesize (("int x;\n").toList)
        (finalHeaders chronoErrText (("int x;\n").toList))⟩ : Edit).end_line =
      (splitlines (("int x;\n").toList)).length := by
  have h := c6_edit_spans_whole_file c2World ⟨1, [], chronoErrText⟩
    [(("ok"), JVal.jbool true), (("content"), JVal.jstr (("int x;\n").toList))]
    (("int x;\n").toList)
    ⟨("main.cpp"), 1, 1, synthesize (("int x;\n").toList)
      (finalHeaders chronoErrText (("int x;\n").toList))⟩
    rfl rfl rfl (by decide) (by decide)
  exact ⟨h.2.1, h.2.2.1⟩
